import Mathlib

/-!
Verification of core claims about the text-fabric query/presentation engine:
the search-result windowing function and result merge of the service shell
(src/tf/server/data.py), the search cache (src/tf/applib/search.py), and the
section/structure addressing and text-rendering operations of the Text API
(src/tf/core/text.py).

Modelling conventions: Python integers are `Int`/`Nat` (they are unbounded),
Python dicts are functions into `Option` or association lists, Python tuples
are lists, and Python exceptions are `Except String`.  Messages printed on
the diagnostics channel (`api.error`) are collected in a `List String`
component of the result.
-/

namespace TextFabric

/-! ## Windowing: `batchAround` (src/tf/server/data.py lines 13-22)

Source:
```
def batchAround(nResults, position, batch):
  halfBatch = int((batch + 1) / 2)
  left = min(max(position - halfBatch, 1), nResults)
  right = max(min(position + halfBatch, nResults), 1)
  discrepancy = batch - (right - left + 1)
  if discrepancy != 0:
    right += discrepancy
  if right > nResults:
    right = nResults
  return (left, right)
```
For `batch ≥ 0` in the exact range of floats, `int((batch + 1) / 2)` is
`(batch + 1) / 2` in integer division. -/

def batchAround (nResults position batch : Int) : Int × Int :=
  let halfBatch := (batch + 1) / 2
  let left := min (max (position - halfBatch) 1) nResults
  let right := max (min (position + halfBatch) nResults) 1
  let discrepancy := batch - (right - left + 1)
  let right := if discrepancy ≠ 0 then right + discrepancy else right
  let right := if right > nResults then nResults else right
  (left, right)

/-! ## Search cache: `runSearch` (src/tf/applib/search.py lines 132-154)
and the query part of `exposed_search` (src/tf/server/data.py lines 94-105).

The query engine (`S.search`, an external collaborator per the spec) is a
parameter `plainSearch`; the derivation of the per-slot feature usage from
the engine's executable object (`exe.qnodes` / `S.exe.nodeMap`) is abstracted
as `featuresOf` over an opaque `Exe` type.  The third component of the result
records whether the engine was invoked by the call. -/

abbrev QueryText := String

abbrev ResultTuple := List Nat

abbrev Features := List (Nat × List String)

abbrev CacheKey := QueryText × Bool

abbrev CacheVal := List ResultTuple × String × Features

abbrev Cache := List (CacheKey × CacheVal)

/-- Lexicographic comparison of node tuples: Python's ordering on tuples of
ints, used by `tuple(sorted(queryResults))`. -/
def lexLe : List Nat → List Nat → Bool
  | [], _ => true
  | _ :: _, [] => false
  | a :: as, b :: bs => if a < b then true else if b < a then false else lexLe as bs

def sortResults (rs : List ResultTuple) : List ResultTuple := rs.mergeSort lexLe

def runSearch {Exe : Type} (plainSearch : QueryText → List ResultTuple × String × Option Exe)
    (featuresOf : Exe → Features) (query : QueryText) (cache : Cache) :
    CacheVal × Cache × Bool :=
  let cacheKey : CacheKey := (query, false)
  match cache.lookup cacheKey with
  | some v => (v, cache, false)
  | none =>
    let (queryResults, messages, exe) := plainSearch query
    let features : Features := match exe with | some e => featuresOf e | none => []
    let sortedResults := sortResults queryResults
    let v : CacheVal := (sortedResults, messages, features)
    (v, (cacheKey, v) :: cache, true)

/-- The query portion of `exposed_search`: run `runSearch`, then
`if queryMessages: queryResults = ()`. -/
def exposedQuery {Exe : Type} (plainSearch : QueryText → List ResultTuple × String × Option Exe)
    (featuresOf : Exe → Features) (query : QueryText) (cache : Cache) :
    (List ResultTuple × String) × Cache × Bool :=
  let ((queryResults, messages, _features), cache1, invoked) :=
    runSearch plainSearch featuresOf query cache
  ((if messages ≠ "" then [] else queryResults, messages), cache1, invoked)

/-- Concrete failing engine used to witness the cache behaviour on
engine diagnostics. -/
def psC4 : QueryText → List ResultTuple × String × Option Unit :=
  fun _ => ([[2], [1]], "syntax error", none)

def foC4 : Unit → Features := fun _ => []

/-! ## Result merge of `exposed_search` (src/tf/server/data.py lines 75-122)

Source fragment being modelled (after `batchAround` returned
`(start, end)` and `queryResults` was emptied on diagnostics):
```
selectedResults = queryResults[start - 1:end]
opened = set(opened)
before = {n for n in opened if n > 0 and n < start}
after = {n for n in opened if n > end and n <= len(queryResults)}
beforeResults = tuple((n, queryResults[n - 1]) for n in sorted(before))
afterResults = tuple((n, queryResults[n - 1]) for n in sorted(after))
allResults = (
    tupleResults +
    beforeResults +
    tuple((i + start, r) for (i, r) in enumerate(selectedResults)) +
    afterResults
)
```
`tupleLines` stands for the parsed non-empty literal tuple lines; the source
assigns them the synthetic indices `-i - 1` while parsing.  Python list
indexing raises `IndexError` out of range; both indexing sites here are
reached only with positive indices, which `pyIndex` models. -/

def pyIndex {α : Type} (xs : List α) (i : Int) : Except String α :=
  if h : 0 ≤ i ∧ i.toNat < xs.length then .ok (xs.get ⟨i.toNat, h.2⟩)
  else .error "IndexError: list index out of range"

def assembleResults (tupleLines : List ResultTuple) (queryResults : List ResultTuple)
    (opened : Finset Int) (start stop : Int) : Except String (List (Int × ResultTuple)) := do
  let tupleResults : List (Int × ResultTuple) :=
    ((List.range tupleLines.length).zip tupleLines).map (fun p => (-(p.1 : Int) - 1, p.2))
  let n : Int := queryResults.length
  let selected := (queryResults.drop (start.toNat - 1)).take (stop.toNat - (start.toNat - 1))
  let before := opened.filter (fun i => 0 < i ∧ i < start)
  let after := opened.filter (fun i => stop < i ∧ i ≤ n)
  let beforeResults ← (before.sort (· ≤ ·)).mapM
    (fun i => do pure (i, ← pyIndex queryResults (i - 1)))
  let afterResults ← (after.sort (· ≤ ·)).mapM
    (fun i => do pure (i, ← pyIndex queryResults (i - 1)))
  let selectedResults :=
    ((List.range selected.length).zip selected).map (fun p => ((p.1 : Int) + start, p.2))
  pure (tupleResults ++ beforeResults ++ selectedResults ++ afterResults)

/-! ## Structure navigation (src/tf/core/text.py lines 456-612)

`Text.__init__` unpacks the six components of the precomputed
`C.structure.data`, all `None` when no structure hierarchy is configured.
The diagnostics channel (`api.error`) is the `List String` component of each
result; a Python exception is `Except.error`. -/

abbrev Node := Nat

abbrev TypeName := String

abbrev Heading := List (TypeName × String)

structure StructureData where
  hdFromNd : Node → Option Heading
  ndFromHd : Heading → Option Node
  hdMult : Heading → Option (List Node)
  hdTop : List Node
  hdUp : Node → Option Node
  hdDown : Node → Option (List Node)

structure TextCfg where
  fOtype : Node → TypeName
  structureTypeSet : List TypeName
  structureData : Option StructureData

def notConfiguredMsg : String := "structure types are not configured"

def typeMsg (n : Node) (nType : TypeName) : String :=
  toString n ++ " is an " ++ nType ++ " which is not configured as a structure type"

/-- `Text.top` (lines 456-469). -/
def top (t : TextCfg) : Except String (Option (List Node) × List String) :=
  match t.structureData with
  | none => .ok (none, [notConfiguredMsg])
  | some s => .ok (some s.hdTop, [])

/-- `Text.up` (lines 471-506). -/
def up (t : TextCfg) (n : Node) : Except String (Option Node × List String) :=
  match t.structureData with
  | none => .ok (none, [notConfiguredMsg])
  | some s =>
    let nType := t.fOtype n
    if nType ∈ t.structureTypeSet then .ok (s.hdUp n, [])
    else .ok (none, [typeMsg n nType])

/-- `Text.down` (lines 508-542): the configured, well-typed case defaults to
the empty tuple (`hdDown.get(n, ())`). -/
def down (t : TextCfg) (n : Node) : Except String (Option (List Node) × List String) :=
  match t.structureData with
  | none => .ok (none, [notConfiguredMsg])
  | some s =>
    let nType := t.fOtype n
    if nType ∈ t.structureTypeSet then .ok (some ((s.hdDown n).getD []), [])
    else .ok (none, [typeMsg n nType])

/-- `Text.headingFromNode` (lines 544-582). -/
def headingFromNode (t : TextCfg) (n : Node) : Except String (Option Heading × List String) :=
  match t.structureData with
  | none => .ok (none, [notConfiguredMsg])
  | some s =>
    let nType := t.fOtype n
    if nType ∈ t.structureTypeSet then .ok (s.hdFromNd n, [])
    else .ok (none, [typeMsg n nType])

/-- `Text.nodeFromHeading` (lines 584-612).  In the unconfigured case the
source reports the diagnostic but there is no early return, so the next
line `ndFromHd.get(head, None)` dereferences `None` and raises
`AttributeError` — modelled by `Except.error`.  (The source interpolates the
heading into the not-found message; the constant message stands for it.) -/
def nodeFromHeading (t : TextCfg) (head : Heading) : Except String (Option Node × List String) :=
  match t.structureData with
  | none =>
    .error "AttributeError: NoneType object has no attribute get"
  | some s =>
    match s.ndFromHd head with
    | some n => .ok (some n, [])
    | none => .ok (none, ["no structure node with heading"])

/-- A structural tree node: `(node, tuple(structure(d) for d in down(node)))`;
recursive results may be `None` for badly-typed children. -/
inductive STree : Type where
  | mk (node : Node) (children : List (Option STree))

/-- `Text.structure` returns a tree for a node argument and a forest for
`node=None`. -/
inductive SVal : Type where
  | tree : STree → SVal
  | forest : List (Option STree) → SVal

/-- The recursion of `Text.structure` (lines 379-414) with explicit fuel
standing for Python's recursion limit (`RecursionError` on exhaustion). -/
def structureGo (t : TextCfg) (s : StructureData) :
    Nat → Node → Except String (Option STree × List String)
  | 0, _ => .error "RecursionError: maximum recursion depth exceeded"
  | Nat.succ fuel, node =>
    let nType := t.fOtype node
    if nType ∈ t.structureTypeSet then do
      let children := (s.hdDown node).getD []
      let rs ← children.mapM (structureGo t s fuel)
      pure (some (STree.mk node (rs.map Prod.fst)), (rs.map Prod.snd).flatten)
    else
      .ok (none, [typeMsg node nType])

/-- `Text.structure` (lines 379-414); named `structureFn` because `structure`
is a Lean keyword. -/
def structureFn (t : TextCfg) (fuel : Nat) (node : Option Node) :
    Except String (Option SVal × List String) :=
  match t.structureData with
  | none => .ok (none, [notConfiguredMsg])
  | some s =>
    match node with
    | none => do
      let rs ← s.hdTop.mapM (structureGo t s fuel)
      pure (some (SVal.forest (rs.map Prod.fst)), (rs.map Prod.snd).flatten)
    | some n => do
      let r ← structureGo t s fuel n
      pure (r.1.map SVal.tree, r.2)

/-- Configuration with no structure hierarchy, for the unconfigured-case
witness. -/
def cfgNoStruct : TextCfg := ⟨fun _ => "x", [], none⟩

/-! ## Heading maps (claim C8)

The precompute that builds `hdFromNd`/`ndFromHd` (`C.structure.data`) is not
among the given sources; only its consumer `Text.__init__` is. -/

/-- Modelled from the spec: the structure precompute (absent from the given
sources) fills the reverse heading map in corpus node-order, later nodes
overwriting earlier ones on heading collisions, so that "reverse lookup
(heading → node) returns the last-encountered node among colliding headings,
by corpus node-order". -/
def buildNdFromHd (hd : Node → Heading) (nodes : List Node) : Heading → Option Node :=
  nodes.foldl (fun m n => fun h => if h = hd n then some n else m h) (fun _ => none)

/-- Modelled from the spec: the forward map sends each structural node to its
heading (the ordered list of (type, label) pairs of itself and its
ancestors, abstracted here as a function `hd`). -/
def buildHdFromNd (hd : Node → Heading) (nodes : List Node) : Node → Option Heading :=
  fun n => if n ∈ nodes then some (hd n) else none

/-- A `Text` configuration whose heading maps are built by the modelled
precompute; the remaining structure components are irrelevant parameters. -/
def mkStructCfg (fOtype : Node → TypeName) (sts : List TypeName) (hd : Node → Heading)
    (nodes : List Node) (hdM : Heading → Option (List Node)) (hdT : List Node)
    (hdU : Node → Option Node) (hdD : Node → Option (List Node)) : TextCfg :=
  ⟨fOtype, sts, some ⟨buildHdFromNd hd nodes, buildNdFromHd hd nodes, hdM, hdT, hdU, hdD⟩⟩

/-- Concrete heading assignment for the witness: node 1 has a unique heading,
nodes 2 and 3 collide. -/
def hdC8 : Node → Heading := fun n => if n = 1 then [("book", "A")] else [("book", "B")]

def cfgC8 : TextCfg :=
  mkStructCfg (fun _ => "book") ["book"] hdC8 [1, 2, 3]
    (fun _ => none) [] (fun _ => none) (fun _ => none)

/-! ## Section addressing: `Text.sectionTuple` (src/tf/core/text.py lines 129-221)

Result elements are the node itself (`nd`), the empty-string placeholder for
a missing non-top level (`emptyStr`), or Python `None` for a missing top
level (`noneV`).  List indexing (`sTypes[1]`, `sTypes[2]`, `slots[0]`,
`slots[-1]`) raises `IndexError` when out of range. -/

inductive SecElt : Type where
  | nd (n : Node)
  | emptyStr
  | noneV
deriving DecidableEq

structure SecEnv where
  sectionTypes : List TypeName
  fOtype : Node → TypeName
  slotType : TypeName
  maxSlot : Nat
  eoslots : Nat → List Node
  lu : Node → TypeName → List Node

def listIdx {α : Type} (xs : List α) (i : Nat) : Except String α :=
  match xs.get? i with
  | some v => .ok v
  | none => .error "IndexError: list index out of range"

/-- `r1 = r1[0] if r1 else ""` applied to an `L.u` result. -/
def headElt (xs : List Node) : SecElt :=
  match xs.head? with
  | some x => SecElt.nd x
  | none => SecElt.emptyStr

/-- The reference-slot resolution of `sectionTuple` (lines 181-185):
`r = n` for a slot node, else `slots[-1 if lastSlot else 0]` of
`eoslots[n - maxSlot - 1]`. -/
def refSlot (env : SecEnv) (n : Node) (lastSlot : Bool) (nType : TypeName) :
    Except String Node :=
  if nType = env.slotType then pure n
  else
    let slots := env.eoslots (n - env.maxSlot - 1)
    match (if lastSlot then slots.getLast? else slots.head?) with
    | some x => pure x
    | none => Except.error "IndexError: list index out of range"

def sectionTuple (env : SecEnv) (n : Node) (lastSlot : Bool) (fillup : Bool) :
    Except String (List SecElt) := do
  let sTypes := env.sectionTypes
  if sTypes.length = 0 then return []
  let nType := env.fOtype n
  let r ← refSlot env n lastSlot nType
  let st0 ← listIdx sTypes 0
  if nType = st0 then
    if fillup then do
      let st1 ← listIdx sTypes 1
      let r1 := headElt (env.lu r st1)
      if sTypes.length > 2 then do
        let st2 ← listIdx sTypes 2
        let r2 := headElt (env.lu r st2)
        return [SecElt.nd n, r1, r2]
      else
        return [SecElt.nd n, r1]
    else
      return [SecElt.nd n]
  else do
    let r0 := match (env.lu r st0).head? with
      | some x => SecElt.nd x
      | none => SecElt.noneV
    let st1 ← listIdx sTypes 1
    if nType = st1 then
      if fillup ∧ sTypes.length > 2 then do
        let st2 ← listIdx sTypes 2
        let r2 := headElt (env.lu r st2)
        return [r0, SecElt.nd n, r2]
      else
        return [r0, SecElt.nd n]
    else
      let r1 := headElt (env.lu r st1)
      if sTypes.length < 3 then
        return [r0, r1]
      else do
        let st2 ← listIdx sTypes 2
        if nType = st2 then
          return [r0, r1, SecElt.nd n]
        else
          let r2 := headElt (env.lu r st2)
          return [r0, r1, r2]

/-- A configuration with exactly one declared section level. -/
def envSec1 : SecEnv where
  sectionTypes := ["book"]
  fOtype := fun _ => "book"
  slotType := "word"
  maxSlot := 0
  eoslots := fun _ => [1]
  lu := fun _ _ => []

/-- A configuration with three declared section levels. -/
def envSec3 : SecEnv where
  sectionTypes := ["book", "chapter", "verse"]
  fOtype := fun n => if n = 1 then "book" else "word"
  slotType := "word"
  maxSlot := 10
  eoslots := fun _ => [2]
  lu := fun _ _ => []

/-! ## Text rendering: `Text.text` (src/tf/core/text.py lines 614-913)

The compiled format closures `_xformats` and their descend types `_xdTypes`
are dicts keyed by format name; `defaultFormats` maps a node type to its
`<type>-default` format name.  Rendering keyword arguments only flow into
the compiled closures and the custom `func`, so quantifying over all
closures `Node → String` subsumes quantifying over kwargs.  The `explain`
flag only writes to the diagnostics channel and never changes the returned
string; it is carried as an (unused) argument.  A dict access on a missing
key raises `KeyError`. -/

def DEFAULT_FORMAT : String := "text-orig-full"

structure TextEnv where
  fOtype : Node → TypeName
  slotType : TypeName
  maxSlot : Nat
  eoslots : Nat → List Node
  ld : Node → TypeName → List Node
  xformats : String → Option (Node → String)
  xdTypes : String → Option TypeName
  defaultFormats : TypeName → Option String

def dictGet {α : Type} (m : String → Option α) (k : String) : Except String α :=
  match m k with
  | some v => .ok v
  | none => .error ("KeyError: " ++ k)

/-- The per-node format/descend resolution of `Text.text` (lines 818-864):
returns the compiled closure, the name of the effective format, and the
effective descend target type (before the `downType == nType` no-expansion
normalisation).  `fmt = none` models an absent (or Python-falsy) `fmt`
argument, `descend : Option Bool` the three-valued `descend` argument. -/
def resolveFmt (env : TextEnv) (fmt : Option String) (descend : Option Bool)
    (nType : TypeName) : Except String ((Node → String) × String × TypeName) :=
  if descend = some true then
    match fmt with
    | some f => do
      let repf ← dictGet env.xformats f
      let d ← dictGet env.xdTypes f
      pure (repf, f, d)
    | none => do
      let repf ← dictGet env.xformats DEFAULT_FORMAT
      let d ← dictGet env.xdTypes DEFAULT_FORMAT
      pure (repf, DEFAULT_FORMAT, d)
  else
    match fmt with
    | some f => do
      let repf ← dictGet env.xformats f
      if descend = none then do
        let d ← dictGet env.xdTypes f
        pure (repf, f, d)
      else
        pure (repf, f, nType)
    | none =>
      match env.defaultFormats nType with
      | some dfmt => do
        let repf ← dictGet env.xformats dfmt
        pure (repf, dfmt, nType)
      | none => do
        let repf ← dictGet env.xformats DEFAULT_FORMAT
        if descend = none then do
          let d ← dictGet env.xdTypes DEFAULT_FORMAT
          pure (repf, DEFAULT_FORMAT, d)
        else
          pure (repf, DEFAULT_FORMAT, nType)

/-- The per-node body of the `for node in nodes` loop (lines 814-909):
resolve the format and descend type, normalise `downType` to `None` when it
equals the node's own type, expand via `eoslots` (slot fast path) or `L.d`,
override the closure with `func` when given, and map it over the expansion.
The `not repf` rescue branch of the source is unreachable here because every
value stored in `_xformats` by `_compileFormats` is a closure. -/
def textNodeStep (env : TextEnv) (fmt : Option String) (descend : Option Bool)
    (func : Option (Node → String)) (node : Node) : Except String (List String) := do
  let nType := env.fOtype node
  let (repf0, _fmtName, downType0) ← resolveFmt env fmt descend nType
  let downOpt : Option TypeName := if downType0 = nType then none else some downType0
  let xnodes : List Node :=
    match downOpt with
    | some dt => if dt = env.slotType then env.eoslots (node - env.maxSlot - 1) else env.ld node dt
    | none => [node]
  let repf := match func with | some f => f | none => repf0
  pure (xnodes.map repf)

/-- The `nodes` argument of `Text.text`: a bare int or an iterable. -/
inductive NodesArg : Type where
  | single (n : Node)
  | many (ns : List Node)

/-- `Text.text` (lines 614-913): an explicitly passed undefined format aborts
the call returning the empty string (after a diagnostic); otherwise a single
node is wrapped in a one-element list and the loop concatenates all pieces
with no separator. -/
def text (env : TextEnv) (nodes : NodesArg) (fmt : Option String) (descend : Option Bool)
    (func : Option (Node → String)) (explain : Bool) : Except String String :=
  match fmt with
  | some f =>
    if (env.xformats f).isNone then .ok ""
    else textBody env nodes (some f) descend func explain
  | none => textBody env nodes none descend func explain
where
  textBody (env : TextEnv) (nodes : NodesArg) (fmt : Option String) (descend : Option Bool)
      (func : Option (Node → String)) (_explain : Bool) : Except String String := do
    let ns := match nodes with
      | .single n => [n]
      | .many l => l
    let material ← ns.mapM (textNodeStep env fmt descend func)
    pure (String.join material.flatten)

def gRepf : Node → String := fun n => "G" ++ toString n

def pRepf : Node → String := fun n => "P" ++ toString n

/-- A configuration where type `phrase` has the per-type default format
`phrase-default` (descend type `phrase`) and the global default
`text-orig-full` descends to the slot type `word`.  Node 11 is a phrase
spanning slots 1 and 2. -/
def envC1 : TextEnv where
  fOtype := fun n => if n ≤ 10 then "word" else "phrase"
  slotType := "word"
  maxSlot := 10
  eoslots := fun _ => [1, 2]
  ld := fun _ _ => []
  xformats := fun f =>
    if f = "text-orig-full" then some gRepf
    else if f = "phrase-default" then some pRepf
    else none
  xdTypes := fun f =>
    if f = "text-orig-full" then some "word"
    else if f = "phrase-default" then some "phrase"
    else none
  defaultFormats := fun t => if t = "phrase" then some "phrase-default" else none

end TextFabric

namespace TextFabric

/-! ## Helper lemmas -/

theorem lookup_cons_self (k : CacheKey) (v : CacheVal) (c : Cache) :
    ((k, v) :: c).lookup k = some v := by
  simp [List.lookup]

theorem except_bind_ok {α β : Type} (a : α) (f : α → Except String β) :
    ((Except.ok a : Except String α) >>= f) = f a := rfl

theorem enum_fst {α : Type} (f : Nat → Int) (xs : List α) :
    (((List.range xs.length).zip xs).map (fun p => (f p.1, p.2))).map Prod.fst
      = (List.range xs.length).map f := by
  rw [List.map_map]
  show ((List.range xs.length).zip xs).map (f ∘ Prod.fst) = _
  rw [← List.map_map, List.map_fst_zip]
  simp

theorem enum_snd {α : Type} (f : Nat → Int) (xs : List α) :
    (((List.range xs.length).zip xs).map (fun p => (f p.1, p.2))).map Prod.snd = xs := by
  rw [List.map_map]
  show ((List.range xs.length).zip xs).map Prod.snd = _
  rw [List.map_snd_zip]
  simp

theorem mapM_pyIndex (qr : List ResultTuple) (l : List Int)
    (h : ∀ i ∈ l, 0 < i ∧ i ≤ (qr.length : Int)) :
    ∃ B, (l.mapM (fun i => do pure (i, ← pyIndex qr (i - 1))) : Except String _) = .ok B ∧
      B.map Prod.fst = l ∧ ∀ p ∈ B, pyIndex qr (p.1 - 1) = .ok p.2 := by
  induction l with
  | nil => exact ⟨[], rfl, rfl, by simp⟩
  | cons a t ih =>
    obtain ⟨ha1, ha2⟩ := h a (by simp)
    obtain ⟨B, hB, hmap, hmem⟩ := ih (fun i hi => h i (by simp [hi]))
    have hcond : 0 ≤ a - 1 ∧ (a - 1).toNat < qr.length := by omega
    have hv : pyIndex qr (a - 1) = .ok (qr.get ⟨(a - 1).toNat, hcond.2⟩) := by
      unfold pyIndex
      rw [dif_pos hcond]
    refine ⟨(a, qr.get ⟨(a - 1).toNat, hcond.2⟩) :: B, ?_, by simp [hmap], ?_⟩
    · simp only [List.mapM_cons, hv, hB]
      rfl
    · intro p hp
      rcases List.mem_cons.mp hp with h1 | h1
      · subst h1; exact hv
      · exact hmem p h1

theorem getLast?_or (a : Node) (l : List Node) :
    (a :: l).getLast? = (l.getLast?).or (some a) := by
  induction l generalizing a with
  | nil => rfl
  | cons b t ih =>
    rw [List.getLast?_cons_cons, ih b]
    cases t.getLast? <;> rfl

theorem mem_getLast? (l : List Node) (m : Node) (h : l.getLast? = some m) : m ∈ l := by
  induction l with
  | nil => cases h
  | cons a t ih =>
    rw [getLast?_or] at h
    cases ht : t.getLast? with
    | none =>
      rw [ht] at h
      simp only [Option.or] at h
      cases h
      exact List.mem_cons_self _ _
    | some b =>
      rw [ht] at h
      simp only [Option.or] at h
      cases h
      exact List.mem_cons_of_mem a (ih ht)

theorem getLast?_isSome (l : List Node) (h : l ≠ []) : ∃ m, l.getLast? = some m := by
  cases l with
  | nil => exact absurd rfl h
  | cons a t =>
    rw [getLast?_or]
    cases t.getLast? with
    | none => exact ⟨a, rfl⟩
    | some b => exact ⟨b, rfl⟩

theorem le_getLast?_of_sorted (l : List Node) (hs : l.Pairwise (· < ·)) (m : Node)
    (hm : l.getLast? = some m) : ∀ y ∈ l, y ≤ m := by
  induction l with
  | nil => intro y hy; cases hy
  | cons a t ih =>
    intro y hy
    cases t with
    | nil =>
      simp only [List.getLast?_singleton] at hm
      cases hm
      rcases List.mem_singleton.mp hy with rfl
      exact le_refl y
    | cons b t2 =>
      rw [List.getLast?_cons_cons] at hm
      have hbt := (List.pairwise_cons.mp hs).2
      have hab := (List.pairwise_cons.mp hs).1
      rcases List.mem_cons.mp hy with rfl | hy2
      · have hb : b ≤ m := ih hbt hm b (List.mem_cons_self b t2)
        have hyb : y < b := hab b (List.mem_cons_self b t2)
        exact le_trans (le_of_lt hyb) hb
      · exact ih hbt hm y hy2

theorem buildNdFromHd_eq (hd : Node → Heading) (nodes : List Node) (h : Heading) :
    buildNdFromHd hd nodes h = (nodes.filter (fun n => hd n = h)).getLast? := by
  unfold buildNdFromHd
  suffices H : ∀ (acc : Heading → Option Node),
      nodes.foldl (fun m n => fun h2 => if h2 = hd n then some n else m h2) acc h
        = ((nodes.filter (fun n => hd n = h)).getLast?).or (acc h) by
    rw [H (fun _ => none)]
    cases (nodes.filter (fun n => hd n = h)).getLast? <;> rfl
  induction nodes with
  | nil => intro acc; rfl
  | cons n ns ih =>
    intro acc
    simp only [List.foldl_cons, List.filter_cons]
    by_cases hn : hd n = h
    · have hd1 : (decide (hd n = h)) = true := by simp [hn]
      rw [ih, hd1, if_pos rfl, getLast?_or, if_pos hn.symm]
      cases (ns.filter (fun n => hd n = h)).getLast? <;> rfl
    · have hd0 : (decide (hd n = h)) = false := by simp [hn]
      rw [ih, hd0]
      rw [if_neg (fun he : h = hd n => hn he.symm)]
      rw [if_neg Bool.false_ne_true]

theorem refSlot_ok (env : SecEnv) (n : Node) (lastSlot : Bool) (nType : TypeName)
    (href : nType = env.slotType ∨ env.eoslots (n - env.maxSlot - 1) ≠ []) :
    ∃ y, refSlot env n lastSlot nType = .ok y := by
  unfold refSlot
  by_cases hs : nType = env.slotType
  · exact ⟨n, by rw [if_pos hs]; rfl⟩
  · rw [if_neg hs]
    have hne : env.eoslots (n - env.maxSlot - 1) ≠ [] := by
      rcases href with h | h
      · exact absurd h hs
      · exact h
    rcases hx : env.eoslots (n - env.maxSlot - 1) with _ | ⟨x, xs⟩
    · exact absurd hx hne
    · obtain ⟨z, hz⟩ : ∃ z, (if lastSlot then (x :: xs).getLast?
          else (x :: xs).head?) = some z := by
        cases lastSlot
        · exact ⟨x, by simp⟩
        · exact ⟨(x :: xs).getLast (by simp), by simp [List.getLast?_eq_getLast]⟩
      refine ⟨z, ?_⟩
      simp only [hz]
      rfl

/-! ## Claim theorems -/

/-- C9: for every totalCount n > 0, batchSize b > 0, and every integer
pivotPosition p, the pair (left, right) returned by `batchAround`
satisfies 1 ≤ left ≤ right ≤ n. -/
theorem batchAround_bounds (n p b : Int) (hn : 0 < n) (hb : 0 < b) :
    1 ≤ (batchAround n p b).1 ∧ (batchAround n p b).1 ≤ (batchAround n p b).2 ∧
      (batchAround n p b).2 ≤ n := by
  unfold batchAround
  generalize (b + 1) / 2 = h
  simp only [min_def, max_def]
  split_ifs <;> simp_all <;> omega

/-- C9 witness: the bounds at n = 5, p = 3, b = 10. -/
theorem batchAround_bounds_witness :
    1 ≤ (batchAround 5 3 10).1 ∧ (batchAround 5 3 10).1 ≤ (batchAround 5 3 10).2 ∧
      (batchAround 5 3 10).2 ≤ 5 :=
  batchAround_bounds 5 3 10 (by decide) (by decide)

/-- C2 counterexample: at n = 100, p = 100, b = 10 the returned window is
(95, 100), whose width 6 is not min(b, n) = 10, refuting the claimed
universal width law. -/
theorem batchAround_width_cex :
    batchAround 100 100 10 = (95, 100) ∧
      ¬ ((batchAround 100 100 10).2 - (batchAround 100 100 10).1 + 1
          = min 10 (100 : Int)) := by
  constructor
  · decide
  · decide

/-- C2 (amended): for every n, p and b > 0: when n > 0 the returned window
satisfies right = min(left + b - 1, n), hence its width right - left + 1
equals min(b, n - left + 1) — which is min(b, n) unless the window is
clipped at the right boundary; when n = 0 the returned pair is (0, 0)
(denoting the empty slice); and the spec examples
batchAround(100,50,10) = (45,54), batchAround(100,3,10) = (1,10),
batchAround(5,3,10) = (1,5) hold. -/
theorem batchAround_width (n p b : Int) (hb : 0 < b) :
    (0 < n → (batchAround n p b).2 = min ((batchAround n p b).1 + b - 1) n) ∧
    (0 < n → (batchAround n p b).2 - (batchAround n p b).1 + 1
        = min b (n - (batchAround n p b).1 + 1)) ∧
    (n = 0 → batchAround n p b = (0, 0)) ∧
    batchAround 100 50 10 = (45, 54) ∧
    batchAround 100 3 10 = (1, 10) ∧
    batchAround 5 3 10 = (1, 5) := by
  have hmain : (0 < n → (batchAround n p b).2 = min ((batchAround n p b).1 + b - 1) n) ∧
      (0 < n → (batchAround n p b).2 - (batchAround n p b).1 + 1
          = min b (n - (batchAround n p b).1 + 1)) ∧
      (n = 0 → batchAround n p b = (0, 0)) := by
    unfold batchAround
    generalize (b + 1) / 2 = h
    simp only [min_def, max_def, Prod.mk.injEq]
    split_ifs <;> (constructor <;> try constructor) <;> intro h1 <;> omega
  exact ⟨hmain.1, hmain.2.1, hmain.2.2, by decide, by decide, by decide⟩

/-- C2 witness: the amended width law instantiated at n = 100, p = 50,
b = 10. -/
theorem batchAround_width_witness :
    (0 < (100 : Int) → (batchAround 100 50 10).2
        = min ((batchAround 100 50 10).1 + 10 - 1) 100) ∧
    (0 < (100 : Int) → (batchAround 100 50 10).2 - (batchAround 100 50 10).1 + 1
        = min 10 (100 - (batchAround 100 50 10).1 + 1)) ∧
    ((100 : Int) = 0 → batchAround 100 50 10 = (0, 0)) ∧
    batchAround 100 50 10 = (45, 54) ∧
    batchAround 100 3 10 = (1, 10) ∧
    batchAround 5 3 10 = (1, 5) :=
  batchAround_width 100 50 10 (by decide)

/-- C5: calling `runSearch` a second time with the same query on the cache
produced by the first call returns the first call's (sortedResultTuples,
diagnostics, featureUsage) value unchanged, leaves the cache unchanged, and
does not invoke the query engine (third component false). -/
theorem runSearch_idempotent {Exe : Type}
    (plainSearch : QueryText → List ResultTuple × String × Option Exe)
    (featuresOf : Exe → Features) (q : QueryText) (c0 : Cache) :
    runSearch plainSearch featuresOf q ((runSearch plainSearch featuresOf q c0).2.1) =
      ((runSearch plainSearch featuresOf q c0).1,
       (runSearch plainSearch featuresOf q c0).2.1, false) := by
  unfold runSearch
  rcases hc : c0.lookup (q, false) with _ | v
  · simp only [hc]
    simp [lookup_cons_self]
  · simp [hc]

/-- C4: when the engine reports diagnostics for a fresh query, the exposed
search step returns the empty result set together with those diagnostics,
still inserts the cache entry under the query's key, and a second identical
call is answered from the cache (same empty results and diagnostics) without
invoking the engine again. -/
theorem runSearch_error_cached {Exe : Type}
    (plainSearch : QueryText → List ResultTuple × String × Option Exe)
    (featuresOf : Exe → Features) (q : QueryText) (c0 : Cache)
    (res : List ResultTuple) (msgs : String) (exe : Option Exe)
    (hps : plainSearch q = (res, msgs, exe))
    (hmiss : c0.lookup (q, false) = none)
    (herr : msgs ≠ "") :
    exposedQuery plainSearch featuresOf q c0 =
      (([], msgs),
       ((q, false), (sortResults res, msgs,
          match exe with | some e => featuresOf e | none => [])) :: c0, true) ∧
    exposedQuery plainSearch featuresOf q
        (((q, false), (sortResults res, msgs,
            match exe with | some e => featuresOf e | none => [])) :: c0) =
      (([], msgs),
       ((q, false), (sortResults res, msgs,
          match exe with | some e => featuresOf e | none => [])) :: c0, false) := by
  unfold exposedQuery runSearch
  simp only [hmiss, hps, lookup_cons_self]
  cases exe <;> simp [herr]

/-- C4 witness: a concrete failing engine on a fresh cache. -/
theorem runSearch_error_cached_witness :
    exposedQuery psC4 foC4 "q" [] =
      (([], "syntax error"),
       (("q", false), (sortResults [[2], [1]], "syntax error", [])) :: [], true) ∧
    exposedQuery psC4 foC4 "q"
        ((("q", false), (sortResults [[2], [1]], "syntax error", [])) :: []) =
      (([], "syntax error"),
       (("q", false), (sortResults [[2], [1]], "syntax error", [])) :: [], false) :=
  runSearch_error_cached psC4 foC4 "q" [] [[2], [1]] "syntax error" none rfl rfl
    (by decide)

/-- C7: the merged result sequence is, in this fixed order, the literal
tuples with synthetic negative indices -1, -2, …, then the kept-open indices
before the window ascending (paired with their query results), then the
windowed slice at its natural positions start, start+1, …, then the
kept-open indices after the window ascending; every kept-open entry (index
of an actual query result row) outside [start, stop] is included. -/
theorem assemble_order (tupleLines queryResults : List ResultTuple)
    (opened : Finset Int) (start stop : Int)
    (hopen : ∀ i ∈ opened, 0 < i ∧ i ≤ (queryResults.length : Int)) :
    ∃ T B W A,
      assembleResults tupleLines queryResults opened start stop = .ok (T ++ B ++ W ++ A) ∧
      T.map Prod.fst = (List.range tupleLines.length).map (fun j : Nat => -(j : Int) - 1) ∧
      T.map Prod.snd = tupleLines ∧
      B.map Prod.fst = (opened.filter (fun i => 0 < i ∧ i < start)).sort (· ≤ ·) ∧
      (∀ p ∈ B, pyIndex queryResults (p.1 - 1) = .ok p.2) ∧
      W.map Prod.fst = (List.range W.length).map (fun j : Nat => (j : Int) + start) ∧
      W.map Prod.snd =
        (queryResults.drop (start.toNat - 1)).take (stop.toNat - (start.toNat - 1)) ∧
      A.map Prod.fst =
        (opened.filter (fun i => stop < i ∧ i ≤ (queryResults.length : Int))).sort (· ≤ ·) ∧
      (∀ p ∈ A, pyIndex queryResults (p.1 - 1) = .ok p.2) ∧
      (∀ i ∈ opened, (i < start ∨ stop < i) → ∃ t, (i, t) ∈ B ++ A) := by
  classical
  set selected := (queryResults.drop (start.toNat - 1)).take (stop.toNat - (start.toNat - 1))
    with hsel
  obtain ⟨B, hBok, hBmap, hBmem⟩ :=
    mapM_pyIndex queryResults (((opened.filter (fun i => 0 < i ∧ i < start))).sort (· ≤ ·))
      (by
        intro i hi
        rw [Finset.mem_sort] at hi
        have := Finset.mem_filter.mp hi
        exact ⟨this.2.1, (hopen i this.1).2⟩)
  obtain ⟨A, hAok, hAmap, hAmem⟩ :=
    mapM_pyIndex queryResults
      (((opened.filter (fun i => stop < i ∧ i ≤ (queryResults.length : Int)))).sort (· ≤ ·))
      (by
        intro i hi
        rw [Finset.mem_sort] at hi
        have := Finset.mem_filter.mp hi
        exact ⟨(hopen i this.1).1, this.2.2⟩)
  refine ⟨((List.range tupleLines.length).zip tupleLines).map (fun p => (-(p.1 : Int) - 1, p.2)),
    B,
    ((List.range selected.length).zip selected).map (fun p => ((p.1 : Int) + start, p.2)),
    A, ?_, ?_, ?_, hBmap, hBmem, ?_, ?_, hAmap, hAmem, ?_⟩
  · unfold assembleResults
    simp only [hBok, hAok, ← hsel]
    rfl
  · exact enum_fst (fun j => -(j : Int) - 1) tupleLines
  · exact enum_snd (fun j => -(j : Int) - 1) tupleLines
  · have hlenW : (((List.range selected.length).zip selected).map
        (fun p => ((p.1 : Int) + start, p.2))).length = selected.length := by
      simp
    rw [hlenW]
    exact enum_fst (fun j => (j : Int) + start) selected
  · exact enum_snd (fun j => (j : Int) + start) selected
  · intro i hi hout
    have hmemBA : i ∈ B.map Prod.fst ∨ i ∈ A.map Prod.fst := by
      rcases hout with hlt | hgt
      · left
        rw [hBmap, Finset.mem_sort]
        exact Finset.mem_filter.mpr ⟨hi, (hopen i hi).1, hlt⟩
      · right
        rw [hAmap, Finset.mem_sort]
        exact Finset.mem_filter.mpr ⟨hi, hgt, (hopen i hi).2⟩
    rcases hmemBA with hm | hm
    · obtain ⟨⟨pi, pt⟩, hp, hpe⟩ := List.mem_map.mp hm
      cases hpe
      exact ⟨pt, List.mem_append.mpr (Or.inl hp)⟩
    · obtain ⟨⟨pi, pt⟩, hp, hpe⟩ := List.mem_map.mp hm
      cases hpe
      exact ⟨pt, List.mem_append.mpr (Or.inr hp)⟩

/-- C7 witness: one literal line, five query results, kept-open rows 1 and 5,
window (2, 3). -/
theorem assemble_order_witness :
    ∃ T B W A,
      assembleResults [[7, 8]] [[1], [2], [3], [4], [5]] ({1, 5} : Finset Int) 2 3
          = .ok (T ++ B ++ W ++ A) ∧
      T.map Prod.fst = (List.range ([([7, 8] : ResultTuple)]).length).map
        (fun j : Nat => -(j : Int) - 1) ∧
      T.map Prod.snd = [[7, 8]] ∧
      B.map Prod.fst = (({1, 5} : Finset Int).filter (fun i => 0 < i ∧ i < 2)).sort (· ≤ ·) ∧
      (∀ p ∈ B, pyIndex [[1], [2], [3], [4], [5]] (p.1 - 1) = .ok p.2) ∧
      W.map Prod.fst = (List.range W.length).map (fun j : Nat => (j : Int) + 2) ∧
      W.map Prod.snd =
        (([[1], [2], [3], [4], [5]] : List ResultTuple).drop ((2 : Int).toNat - 1)).take
          ((3 : Int).toNat - ((2 : Int).toNat - 1)) ∧
      A.map Prod.fst = (({1, 5} : Finset Int).filter
        (fun i => 3 < i ∧ i ≤ (([[1], [2], [3], [4], [5]] : List ResultTuple).length : Int))).sort
          (· ≤ ·) ∧
      (∀ p ∈ A, pyIndex [[1], [2], [3], [4], [5]] (p.1 - 1) = .ok p.2) ∧
      (∀ i ∈ ({1, 5} : Finset Int), (i < 2 ∨ 3 < i) → ∃ t, (i, t) ∈ B ++ A) :=
  assemble_order [[7, 8]] [[1], [2], [3], [4], [5]] ({1, 5} : Finset Int) 2 3 (by decide)

/-- C3: with no structure hierarchy configured, top, up, down, structure and
headingFromNode each report the "not configured" diagnostic and return the
null sentinel, but nodeFromHeading — contrary to the claim and to the
sibling operations — raises a fatal AttributeError, because the source
lacks the early return after reporting the diagnostic. -/
theorem structure_ops_unconfigured (t : TextCfg) (hs : t.structureData = none)
    (n : Node) (h : Heading) (fuel : Nat) (node : Option Node) :
    top t = .ok (none, [notConfiguredMsg]) ∧
    up t n = .ok (none, [notConfiguredMsg]) ∧
    down t n = .ok (none, [notConfiguredMsg]) ∧
    structureFn t fuel node = .ok (none, [notConfiguredMsg]) ∧
    headingFromNode t n = .ok (none, [notConfiguredMsg]) ∧
    nodeFromHeading t h = .error "AttributeError: NoneType object has no attribute get" := by
  unfold top up down structureFn headingFromNode nodeFromHeading
  rw [hs]
  exact ⟨rfl, rfl, rfl, rfl, rfl, rfl⟩

/-- C3 witness: the unconfigured behaviour at a concrete configuration. -/
theorem structure_ops_unconfigured_witness :
    top cfgNoStruct = .ok (none, [notConfiguredMsg]) ∧
    up cfgNoStruct 1 = .ok (none, [notConfiguredMsg]) ∧
    down cfgNoStruct 1 = .ok (none, [notConfiguredMsg]) ∧
    structureFn cfgNoStruct 0 none = .ok (none, [notConfiguredMsg]) ∧
    headingFromNode cfgNoStruct 1 = .ok (none, [notConfiguredMsg]) ∧
    nodeFromHeading cfgNoStruct []
      = .error "AttributeError: NoneType object has no attribute get" :=
  structure_ops_unconfigured cfgNoStruct rfl 1 [] 0 none

/-- C8: over the heading maps built in corpus node-order (nodes listed in
strictly ascending id order), headingFromNode of a structural node of a
declared structure type yields its heading; for a node with a unique
heading, nodeFromHeading inverts it; and for any heading with at least one
bearer, nodeFromHeading returns a collider that is the largest in corpus
order (last-wins). -/
theorem heading_roundtrip
    (fOtype : Node → TypeName) (sts : List TypeName) (hd : Node → Heading)
    (nodes : List Node)
    (hdM : Heading → Option (List Node)) (hdT : List Node)
    (hdU : Node → Option Node) (hdD : Node → Option (List Node))
    (hsorted : nodes.Pairwise (· < ·))
    (x : Node) (hx : x ∈ nodes) (htype : fOtype x ∈ sts)
    (huniq : ∀ y ∈ nodes, hd y = hd x → y = x) :
    headingFromNode (mkStructCfg fOtype sts hd nodes hdM hdT hdU hdD) x
      = .ok (some (hd x), []) ∧
    nodeFromHeading (mkStructCfg fOtype sts hd nodes hdM hdT hdU hdD) (hd x)
      = .ok (some x, []) ∧
    (∀ h, (nodes.filter (fun n => hd n = h)) ≠ [] →
      ∃ m, nodeFromHeading (mkStructCfg fOtype sts hd nodes hdM hdT hdU hdD) h
          = .ok (some m, []) ∧
        m ∈ nodes ∧ hd m = h ∧ ∀ y ∈ nodes, hd y = h → y ≤ m) := by
  have lastwins : ∀ h, (nodes.filter (fun n => hd n = h)) ≠ [] →
      ∃ m, buildNdFromHd hd nodes h = some m ∧
        m ∈ nodes ∧ hd m = h ∧ ∀ y ∈ nodes, hd y = h → y ≤ m := by
    intro h hne
    obtain ⟨m, hm⟩ := getLast?_isSome _ hne
    have hmf := mem_getLast? _ _ hm
    have hmem := List.mem_filter.mp hmf
    refine ⟨m, ?_, hmem.1, of_decide_eq_true hmem.2, ?_⟩
    · rw [buildNdFromHd_eq]
      exact hm
    · intro y hy hyh
      exact le_getLast?_of_sorted _ (hsorted.filter _) m hm y
        (List.mem_filter.mpr ⟨hy, decide_eq_true hyh⟩)
  have hxf : x ∈ nodes.filter (fun n => hd n = hd x) :=
    List.mem_filter.mpr ⟨hx, decide_eq_true rfl⟩
  have hne : nodes.filter (fun n => hd n = hd x) ≠ [] := List.ne_nil_of_mem hxf
  obtain ⟨m, hmEq, hmN, hmH, _⟩ := lastwins (hd x) hne
  have hmx : m = x := huniq m hmN hmH
  subst hmx
  refine ⟨?_, ?_, ?_⟩
  · simp [mkStructCfg, headingFromNode, htype, buildHdFromNd, hx]
  · simp [mkStructCfg, nodeFromHeading, hmEq]
  · intro h hne2
    obtain ⟨m2, hm2Eq, hm2N, hm2H, hm2Le⟩ := lastwins h hne2
    refine ⟨m2, ?_, hm2N, hm2H, hm2Le⟩
    simp [mkStructCfg, nodeFromHeading, hm2Eq]

/-- C8 witness: nodes 1, 2, 3 where node 1 has a unique heading (nodes 2 and
3 collide); the round trip at node 1. -/
theorem heading_roundtrip_witness :
    headingFromNode cfgC8 1 = .ok (some (hdC8 1), []) ∧
    nodeFromHeading cfgC8 (hdC8 1) = .ok (some 1, []) :=
  ⟨(heading_roundtrip (fun _ => "book") ["book"] hdC8 [1, 2, 3]
      (fun _ => none) [] (fun _ => none) (fun _ => none)
      (by decide) 1 (by decide) (by decide) (by decide)).1,
   (heading_roundtrip (fun _ => "book") ["book"] hdC8 [1, 2, 3]
      (fun _ => none) [] (fun _ => none) (fun _ => none)
      (by decide) 1 (by decide) (by decide) (by decide)).2.1⟩

/-- C6 counterexample: with exactly one declared section level, sectionTuple
with fillup raises an IndexError (accessing the undeclared second level)
instead of returning a tuple of length 1. -/
theorem sectionTuple_fillup_cex :
    sectionTuple envSec1 5 false true = .error "IndexError: list index out of range" ∧
    envSec1.sectionTypes.length = 1 := ⟨rfl, rfl⟩

/-- C6 (amended): for every node n and every lastSlot, provided the number of
declared section levels is not exactly 1 (it is 0, 2 or 3 — the spec allows
up to three) and the reference slot resolves (n is a slot or its oslots
entry is non-empty), sectionTuple with fillup returns a tuple whose length
equals the number of declared levels, missing trailing levels being filled
with explicit placeholders. -/
theorem sectionTuple_fillup_length (env : SecEnv) (n : Node) (lastSlot : Bool)
    (hne1 : env.sectionTypes.length ≠ 1) (hle : env.sectionTypes.length ≤ 3)
    (href : env.fOtype n = env.slotType ∨ env.eoslots (n - env.maxSlot - 1) ≠ []) :
    ∃ l, sectionTuple env n lastSlot true = .ok l ∧ l.length = env.sectionTypes.length := by
  obtain ⟨y, hy⟩ := refSlot_ok env n lastSlot (env.fOtype n) href
  rcases hlen : env.sectionTypes with _ | ⟨a, _ | ⟨b, _ | ⟨c, _ | ⟨d, rest⟩⟩⟩⟩
  · refine ⟨[], ?_, by simp [hlen]⟩
    unfold sectionTuple
    rw [hlen]
    rfl
  · rw [hlen] at hne1; simp at hne1
  · unfold sectionTuple
    simp only [hlen, hy]
    simp [listIdx, except_bind_ok]
    split_ifs <;> exact ⟨_, rfl, rfl⟩
  · unfold sectionTuple
    simp only [hlen, hy]
    simp [listIdx, except_bind_ok]
    split_ifs <;> exact ⟨_, rfl, rfl⟩
  · rw [hlen] at hle; simp at hle

/-- C6 witness: a slot node in a three-level configuration. -/
theorem sectionTuple_fillup_length_witness :
    ∃ l, sectionTuple envSec3 5 false true = .ok l ∧
      l.length = envSec3.sectionTypes.length :=
  sectionTuple_fillup_length envSec3 5 false (by decide) (by decide) (Or.inl rfl)

/-- C1 counterexample: in `envC1`, where type phrase has the per-type default
format phrase-default (descend type phrase), calling the render operation
with explicitDescend = true and no explicit format resolves the GLOBAL
default format text-orig-full with descend type word — not the per-type
default — and rendering phrase node 11 accordingly applies the global
closure to its slots, yielding "G1G2". -/
theorem resolveFmt_cex :
    (resolveFmt envC1 none (some true) "phrase").toOption.map (fun p => (p.2.1, p.2.2))
      = some (DEFAULT_FORMAT, "word") ∧
    text envC1 (.single 11) none (some true) none false = .ok "G1G2" ∧
    ("phrase-default", "phrase") ≠ (DEFAULT_FORMAT, "word") := by
  refine ⟨rfl, rfl, by decide⟩

/-- C1 (amended): in the render operation, when the caller passes
explicitDescend = true and no explicit format, the effective format for
every node — regardless of any per-type default — is the global default
format (text-orig-full) and the effective descend type is that global
format's declared descend-to type; descend=True bypasses per-type
defaults. -/
theorem resolveFmt_descend_global (env : TextEnv) (nType : TypeName)
    (repf : Node → String) (d : TypeName)
    (h1 : env.xformats DEFAULT_FORMAT = some repf)
    (h2 : env.xdTypes DEFAULT_FORMAT = some d) :
    resolveFmt env none (some true) nType = .ok (repf, DEFAULT_FORMAT, d) := by
  unfold resolveFmt dictGet
  simp only [h1, h2]
  rfl

/-- C1 witness: the amended resolution at the concrete configuration. -/
theorem resolveFmt_descend_global_witness :
    resolveFmt envC1 none (some true) "phrase" = .ok (gRepf, DEFAULT_FORMAT, "word") :=
  resolveFmt_descend_global envC1 "phrase" gRepf "word" rfl rfl

/-- C10: `Text.text` called with a bare integer node returns exactly the same
string (and the same exception behaviour) as when called with the singleton
list of that node, for every configuration and every combination of the
fmt, descend, func and explain arguments (keyword arguments are subsumed in
the quantification over the compiled closures and func). -/
theorem text_single_eq_list (env : TextEnv) (n : Node) (fmt : Option String)
    (descend : Option Bool) (func : Option (Node → String)) (explain : Bool) :
    text env (.single n) fmt descend func explain
      = text env (.many [n]) fmt descend func explain := by
  cases fmt <;> rfl

end TextFabric
